import Mathlib

/-!
Verification development for the Student Management System repository.

The repository ships the SQLite schema for its two tables (created verbatim in
the test fixtures) together with test harnesses for the model and view layers.
The model/view implementation modules themselves (`model/student_model.py`,
`model/course_model.py`, `view/student_view.py`, `view/base_view.py`) are not
part of the provided sources, so the operations below are modelled from the
specification document, while the data model and its constraints follow the
schema that is in the sources.
-/

namespace StudentMgmt

/-- A row of the `students` table.  Schema from the `CREATE TABLE students`
statement in the test fixtures: `id INTEGER PRIMARY KEY AUTOINCREMENT`,
`student_no TEXT UNIQUE NOT NULL`, `first_name`, `last_name`, `email` text
columns, and a nullable `course_id` foreign key. -/
structure StudentRow where
  id : Nat
  student_no : String
  first_name : String
  last_name : String
  email : String
  course_id : Option Nat
  deriving Repr, DecidableEq

/-- A row of the `courses` table.  Schema from the `CREATE TABLE courses`
statement in the test fixtures: `id INTEGER PRIMARY KEY AUTOINCREMENT`,
`course_code TEXT UNIQUE NOT NULL`, `course_name`, `lecturer` text columns
and an integer `credits` column. -/
structure CourseRow where
  id : Nat
  course_code : String
  course_name : String
  lecturer : String
  credits : Int
  deriving Repr, DecidableEq

/-- The visible state of the SQLite database: the two tables plus the
`AUTOINCREMENT` counters that generate fresh primary keys. -/
structure DBState where
  students : List StudentRow
  courses : List CourseRow
  nextStudentId : Nat
  nextCourseId : Nat
  deriving Repr, DecidableEq

/-- Errors surfaced by the database layer.  `integrityError` models
`sqlite3.IntegrityError`, raised when an INSERT or UPDATE violates the
`UNIQUE` constraint of the schema. -/
inductive DbError where
  | integrityError
  deriving Repr, DecidableEq

/-- Modelled from the spec: `StudentModel.add_student` (module
`model/student_model.py`, not among the provided sources) performs a
single-row SQL INSERT.  The `students` schema in the sources declares
`student_no TEXT UNIQUE NOT NULL`, so inserting a row whose `student_no`
already occurs raises an integrity error and stores nothing; otherwise the
row is appended with a fresh generated id. -/
def add_student (db : DBState) (sno fn ln em : String) (cid : Option Nat) :
    Except DbError DBState :=
  if ∀ r ∈ db.students, r.student_no ≠ sno then
    Except.ok { db with
      students := db.students ++ [⟨db.nextStudentId, sno, fn, ln, em, cid⟩],
      nextStudentId := db.nextStudentId + 1 }
  else
    Except.error DbError.integrityError

/-- Modelled from the spec: `StudentModel.delete_student` (module
`model/student_model.py`, not among the provided sources) performs a
single-row SQL DELETE keyed by the primary key: `DELETE FROM students
WHERE id = ?`. -/
def delete_student (db : DBState) (i : Nat) : DBState :=
  { db with students := db.students.filter (fun r => r.id ≠ i) }

/-- The row produced by overwriting every non-key column of `r` with the
given values (the SET clause of the UPDATE statement). -/
def updRow (r : StudentRow) (sno fn ln em : String) (cid : Option Nat) :
    StudentRow :=
  { r with student_no := sno, first_name := fn, last_name := ln,
           email := em, course_id := cid }

/-- Modelled from the spec: `StudentModel.update_student` (module
`model/student_model.py`, not among the provided sources) performs a
single-row SQL UPDATE keyed by the primary key.  The `UNIQUE` constraint on
`student_no` still applies: setting a `student_no` that another row already
holds raises an integrity error. -/
def update_student (db : DBState) (i : Nat) (sno fn ln em : String)
    (cid : Option Nat) : Except DbError DBState :=
  if ∀ r ∈ db.students, r.id = i ∨ r.student_no ≠ sno then
    Except.ok { db with
      students := db.students.map (fun r =>
        if r.id = i then updRow r sno fn ln em cid else r) }
  else
    Except.error DbError.integrityError

/-- Strip leading and trailing space characters from a character list. -/
def trimSpaces (l : List Char) : List Char :=
  ((l.dropWhile (fun c => c == ' ')).reverse.dropWhile (fun c => c == ' ')).reverse

/-- The full name displayed for a student row (the `name` column the view
shows and searches); the test fixtures display it as first name followed by
last name, rendered without dangling whitespace when a part is empty. -/
def displayName (r : StudentRow) : String :=
  String.mk (trimSpaces (r.first_name.data ++ [' '] ++ r.last_name.data))

/-- Does `n` occur at the front of `h`?  Executable check on character
lists. -/
def pfxOf : List Char → List Char → Bool
  | [], _ => true
  | _ :: _, [] => false
  | a :: as, b :: bs => a == b && pfxOf as bs

/-- Does `n` occur contiguously anywhere inside `h`?  Executable check on
character lists. -/
def subOfList (n : List Char) : List Char → Bool
  | [] => n.isEmpty
  | c :: rest => pfxOf n (c :: rest) || subOfList n rest

/-- Does `needle` occur as a contiguous substring of `hay`? -/
def strContainsSub (hay needle : String) : Bool :=
  subOfList needle.data hay.data

/-- The specification-side reading of substring matching, stated in the
spec's words: the needle occurs as a contiguous substring of the haystack. -/
def SubstringOf (needle hay : String) : Prop :=
  ∃ p q : List Char, hay.data = p ++ needle.data ++ q

/-- Modelled from the spec: `StudentModel.search_students` (module
`model/student_model.py`, not among the provided sources) performs a
substring `LIKE` query with the search string passed to the database as a
bound query parameter, so the stored rows whose displayed name contains the
search string as a literal substring are returned. -/
def search_students (db : DBState) (s : String) : List StudentRow :=
  db.students.filter (fun r => strContainsSub (displayName r) s)

/-- Modelled from the spec: the analogous course search (module
`model/course_model.py`, not among the provided sources) performs a
substring `LIKE` query over the course name with a bound parameter. -/
def search_courses (db : DBState) (s : String) : List CourseRow :=
  db.courses.filter (fun c => strContainsSub c.course_name s)

/-- The student form of the view: one text entry per column plus the course
combobox (holding a course name). -/
structure StudentForm where
  student_no : String
  first_name : String
  last_name : String
  email : String
  course : String
  deriving Repr, DecidableEq

/-- A blocking message box shown by the view (`messagebox.showerror` or
`messagebox.showinfo`). -/
inductive Dialog where
  | err (title msg : String)
  | info (title msg : String)
  deriving Repr, DecidableEq

/-- The course id the view looks up for the course name selected in the
combobox (`SELECT id FROM courses WHERE course_name = ?`). -/
def lookupCourseId (db : DBState) (cname : String) : Option Nat :=
  (db.courses.find? (fun c => c.course_name = cname)).map (fun c => c.id)

/-- Modelled from the spec: `StudentView.save_student` (module
`view/student_view.py`, not among the provided sources).  Its only
form-field validation is the "all fields non-empty" check; an empty field
shows the blocking error dialog "All fields are required." and touches
nothing.  Otherwise the course id is looked up from the selected course
name and the row is inserted via `add_student`; a database integrity error
is reported through an error dialog and stores nothing. -/
def save_student (f : StudentForm) (db : DBState) : Dialog × DBState :=
  if f.student_no = "" ∨ f.first_name = "" ∨ f.last_name = "" ∨
      f.email = "" ∨ f.course = "" then
    (Dialog.err "Error" "All fields are required.", db)
  else
    match add_student db f.student_no f.first_name f.last_name f.email
        (lookupCourseId db f.course) with
    | Except.ok db2 => (Dialog.info "Success" "Student added successfully.", db2)
    | Except.error _ => (Dialog.err "Error" "UNIQUE constraint failed", db)

/-- Split a character list into its space-separated words, discarding empty
pieces (the behaviour of Python's argumentless `str.split`). -/
def wordsAux : List Char → List Char → List (List Char)
  | [], acc => if acc.isEmpty then [] else [acc.reverse]
  | c :: rest, acc =>
    if c == ' ' then
      if acc.isEmpty then wordsAux rest [] else acc.reverse :: wordsAux rest []
    else wordsAux rest (c :: acc)

/-- The space-separated words of a character list. -/
def wordsOf (l : List Char) : List (List Char) :=
  wordsAux l []

/-- Modelled from the spec: the name-splitting step of
`StudentView.on_row_select` (module `view/student_view.py`, not among the
provided sources).  The spec lists a "name-splitting IndexError" among the
known bugs: the handler splits the displayed full name into words and reads
the first and second word as first and last name, so a one-word name makes
the second access raise `IndexError`. -/
def on_row_select (name : String) : Except String (String × String) :=
  match wordsOf name.data with
  | p0 :: p1 :: _ => Except.ok (String.mk p0, String.mk p1)
  | _ => Except.error "IndexError: list index out of range"

/-- One theme palette of the JSON configuration file (the widget colors the
view applies). -/
structure ThemeColors where
  bg : String
  form_bg : String
  button_bg : String
  button_fg : String
  entry_bg : String
  entry_fg : String
  tree_bg : String
  tree_fg : String
  deriving Repr, DecidableEq

/-- The theming state of `BaseView`: the active theme name, the two
palettes read from the JSON configuration file, the theme name currently
saved in that file, and the background color currently applied to the
widgets. -/
structure BaseViewState where
  theme : String
  light : ThemeColors
  dark : ThemeColors
  savedTheme : String
  appliedBg : String
  deriving Repr, DecidableEq

/-- The palette the configuration associates with a theme name (the
`colors` mapping of the JSON file, keyed by "light" and "dark"). -/
def paletteOf (s : BaseViewState) (t : String) : ThemeColors :=
  if t = "light" then s.light else s.dark

/-- Modelled from the spec: `BaseView.apply_theme` (module
`view/base_view.py`, not among the provided sources) reapplies the widget
color attributes from the palette of the active theme. -/
def apply_theme (s : BaseViewState) : BaseViewState :=
  { s with appliedBg := (paletteOf s s.theme).bg }

/-- Modelled from the spec: `BaseView.toggle_theme` (module
`view/base_view.py`, not among the provided sources) swaps the active
palette between "light" and "dark", saves the new theme name back to the
JSON configuration file, and reapplies the widget colors. -/
def toggle_theme (s : BaseViewState) : BaseViewState :=
  let t2 := if s.theme = "light" then "dark" else "light"
  apply_theme { s with theme := t2, savedTheme := t2 }

/-- The CS101 course the test fixtures insert. -/
def courseCS : CourseRow :=
  ⟨1, "CS101", "Computer Science", "Dr. Smith", 3⟩

/-- A small concrete database: CS101 plus the student John Doe (S1001) from
the harness. -/
def db0 : DBState :=
  { students := [⟨1, "S1001", "John", "Doe", "john.doe@university.edu", some 1⟩],
    courses := [courseCS],
    nextStudentId := 2,
    nextCourseId := 2 }

/-- A concrete database holding the one-word-name student S1007 from the
name-splitting harness test. -/
def db6 : DBState :=
  { students := [⟨1, "S1007", "SingleName", "", "single@university.edu", some 1⟩],
    courses := [courseCS],
    nextStudentId := 2,
    nextCourseId := 2 }

/-- A concrete database with the harness's search fixtures: Alice Johnson
and Bob Williams. -/
def dbSec : DBState :=
  { students :=
      [⟨1, "S1002", "Alice", "Johnson", "alice.j@university.edu", some 1⟩,
       ⟨2, "S1003", "Bob", "Williams", "bob.w@university.edu", some 1⟩],
    courses := [courseCS],
    nextStudentId := 3,
    nextCourseId := 2 }

/-- The SQL-injection probe string the harness feeds to the search. -/
def injStr : String := "\x27 OR \x271\x27=\x271\x27 --"

/-- A filled-in student form with an empty required field. -/
def formEmpty : StudentForm :=
  ⟨"", "John", "Doe", "john.doe@university.edu", "Computer Science"⟩

/-- A fully filled-in student form with a fresh student number. -/
def formGood : StudentForm :=
  ⟨"S1002", "Jane", "Smith", "jane.smith@university.edu", "Computer Science"⟩

/-- The theming state of the fixtures' sample configuration: light theme
active and saved, with the light palette applied. -/
def s8 : BaseViewState :=
  { theme := "light",
    light := ⟨"#f2f3f5", "#ffffff", "#5865F2", "#ffffff", "#ffffff",
              "#000000", "#ffffff", "#000000"⟩,
    dark := ⟨"#2f3136", "#36393f", "#7289da", "#ffffff", "#40444b",
             "#ffffff", "#36393f", "#ffffff"⟩,
    savedTheme := "light",
    appliedBg := "#f2f3f5" }

theorem pfxOf_iff (n h : List Char) : pfxOf n h = true ↔ ∃ t, h = n ++ t := by
  induction n generalizing h with
  | nil => simp [pfxOf]
  | cons a as ih =>
    cases h with
    | nil => simp [pfxOf]
    | cons b bs =>
      simp only [pfxOf, Bool.and_eq_true, beq_iff_eq, ih, List.cons_append,
        List.cons.injEq]
      constructor
      · rintro ⟨rfl, t, rfl⟩
        exact ⟨t, rfl, rfl⟩
      · rintro ⟨t, rfl, rfl⟩
        exact ⟨rfl, t, rfl⟩

theorem subOfList_iff (n h : List Char) :
    subOfList n h = true ↔ ∃ p q, h = p ++ n ++ q := by
  induction h with
  | nil =>
    simp only [subOfList, List.isEmpty_iff]
    constructor
    · rintro rfl
      exact ⟨[], [], rfl⟩
    · rintro ⟨p, q, hpq⟩
      rcases List.append_eq_nil.mp (List.append_eq_nil.mp hpq.symm).1 with ⟨-, h2⟩
      exact h2
  | cons c rest ih =>
    simp only [subOfList, Bool.or_eq_true, pfxOf_iff, ih]
    constructor
    · rintro (⟨t, ht⟩ | ⟨p, q, hpq⟩)
      · exact ⟨[], t, by simp [ht]⟩
      · exact ⟨c :: p, q, by simp [hpq]⟩
    · rintro ⟨p, q, hpq⟩
      cases p with
      | nil =>
        exact Or.inl ⟨q, by simpa using hpq⟩
      | cons x p2 =>
        rcases List.cons.injEq .. ▸ hpq with ⟨-, hrest⟩
        exact Or.inr ⟨p2, q, by simpa using hrest⟩

theorem strContainsSub_iff (hay needle : String) :
    strContainsSub hay needle = true ↔ SubstringOf needle hay :=
  subOfList_iff needle.data hay.data

theorem add_student_err_of_dup (db : DBState) (sno fn ln em : String)
    (cid : Option Nat) (h : ∃ r ∈ db.students, r.student_no = sno) :
    add_student db sno fn ln em cid = Except.error DbError.integrityError := by
  unfold add_student
  rw [if_neg]
  push_neg
  obtain ⟨r, hr, he⟩ := h
  exact ⟨r, hr, he⟩

theorem add_student_ok_of_fresh (db : DBState) (sno fn ln em : String)
    (cid : Option Nat) (h : ∀ r ∈ db.students, r.student_no ≠ sno) :
    add_student db sno fn ln em cid = Except.ok { db with
      students := db.students ++ [⟨db.nextStudentId, sno, fn, ln, em, cid⟩],
      nextStudentId := db.nextStudentId + 1 } := by
  unfold add_student
  rw [if_pos h]

theorem count_filter_of_holds {α : Type} [DecidableEq α] (p : α → Bool)
    (l : List α) (a : α) (ha : p a = true) :
    (l.filter p).count a = l.count a := by
  induction l with
  | nil => rfl
  | cons b l ih =>
    rw [List.filter_cons]
    by_cases hb : p b = true
    · rw [if_pos hb, List.count_cons, List.count_cons, ih]
    · rw [if_neg hb, List.count_cons, ih]
      have hba : ¬ ((b == a) = true) := by
        intro hba
        rw [beq_iff_eq] at hba
        rw [hba, ha] at hb
        exact hb rfl
      rw [if_neg hba, Nat.add_zero]

/-- C1: for every database state containing a student row with student
number `sno`, `add_student` with that same student number fails with the
database uniqueness (integrity) violation of the `student_no UNIQUE`
constraint, producing no new state (so no row is inserted); with a
`student_no` not yet present the insert succeeds and appends the row. -/
theorem add_student_unique (db : DBState) (sno fn ln em : String)
    (cid : Option Nat) :
    ((∃ r ∈ db.students, r.student_no = sno) →
      add_student db sno fn ln em cid = Except.error DbError.integrityError) ∧
    ((∀ r ∈ db.students, r.student_no ≠ sno) →
      add_student db sno fn ln em cid = Except.ok { db with
        students := db.students ++ [⟨db.nextStudentId, sno, fn, ln, em, cid⟩],
        nextStudentId := db.nextStudentId + 1 }) :=
  ⟨add_student_err_of_dup db sno fn ln em cid,
   add_student_ok_of_fresh db sno fn ln em cid⟩

theorem add_student_unique_witness :
    ((∃ r ∈ db0.students, r.student_no = "S1001") ∧
      add_student db0 "S1001" "Jane" "Smith" "jane.smith@university.edu"
        (some 1) = Except.error DbError.integrityError) ∧
    ((∀ r ∈ db0.students, r.student_no ≠ "S1002") ∧
      add_student db0 "S1002" "Jane" "Smith" "jane.smith@university.edu"
        (some 1) = Except.ok { db0 with
          students := db0.students ++
            [⟨2, "S1002", "Jane", "Smith", "jane.smith@university.edu", some 1⟩],
          nextStudentId := 3 }) := by
  have h1 : ∃ r ∈ db0.students, r.student_no = "S1001" := by decide
  have h2 : ∀ r ∈ db0.students, r.student_no ≠ "S1002" := by decide
  exact ⟨⟨h1, (add_student_unique db0 "S1001" "Jane" "Smith"
        "jane.smith@university.edu" (some 1)).1 h1⟩,
    ⟨h2, (add_student_unique db0 "S1002" "Jane" "Smith"
        "jane.smith@university.edu" (some 1)).2 h2⟩⟩

/-- C2: for every database state and every student id `i` present in it,
`delete_student i` removes exactly the row with id `i`: afterwards no
student row with id `i` exists, and every student row value with an id
other than `i` keeps its fields and multiplicity. -/
theorem delete_student_exact (db : DBState) (i : Nat)
    (_hp : ∃ r ∈ db.students, r.id = i) :
    (∀ r ∈ (delete_student db i).students, r.id ≠ i) ∧
    (∀ r : StudentRow, r.id ≠ i →
      (delete_student db i).students.count r = db.students.count r) := by
  constructor
  · intro r hr
    have h := (List.mem_filter.mp hr).2
    simpa using h
  · intro r hne
    exact count_filter_of_holds _ db.students r (by simpa using hne)

theorem delete_student_exact_witness :
    (∃ r ∈ db0.students, r.id = 1) ∧
    (∀ r ∈ (delete_student db0 1).students, r.id ≠ 1) ∧
    (∀ r : StudentRow, r.id ≠ 1 →
      (delete_student db0 1).students.count r = db0.students.count r) := by
  have hp : ∃ r ∈ db0.students, r.id = 1 := by decide
  exact ⟨hp, (delete_student_exact db0 1 hp).1, (delete_student_exact db0 1 hp).2⟩

/-- C3: for every search string `s` and database state, the student search
returns exactly the stored rows whose displayed name contains `s` as a
substring, and the analogous course search returns exactly the stored
courses whose course name contains `s` as a substring: every returned row
matches, and every stored matching row is returned. -/
theorem search_substring_exact (db : DBState) (s : String) :
    (∀ r : StudentRow, r ∈ search_students db s ↔
      r ∈ db.students ∧ SubstringOf s (displayName r)) ∧
    (∀ c : CourseRow, c ∈ search_courses db s ↔
      c ∈ db.courses ∧ SubstringOf s c.course_name) := by
  constructor
  · intro r
    rw [search_students, List.mem_filter, strContainsSub_iff]
  · intro c
    rw [search_courses, List.mem_filter, strContainsSub_iff]

/-- C4: if at least one required form field is empty, saving shows the
blocking error dialog "All fields are required." and inserts no row; when
every field is non-empty that check passes — it is the only form-field
validation, so the save proceeds to the database insert, and with a fresh
student number it succeeds and inserts exactly one row. -/
theorem save_student_validation (f : StudentForm) (db : DBState) :
    ((f.student_no = "" ∨ f.first_name = "" ∨ f.last_name = "" ∨
        f.email = "" ∨ f.course = "") →
      save_student f db = (Dialog.err "Error" "All fields are required.", db)) ∧
    ((f.student_no ≠ "" ∧ f.first_name ≠ "" ∧ f.last_name ≠ "" ∧
        f.email ≠ "" ∧ f.course ≠ "") →
      (save_student f db).1 ≠ Dialog.err "Error" "All fields are required." ∧
      ((∀ r ∈ db.students, r.student_no ≠ f.student_no) →
        (save_student f db).1 =
          Dialog.info "Success" "Student added successfully." ∧
        (save_student f db).2.students.length = db.students.length + 1)) := by
  constructor
  · intro h
    unfold save_student
    rw [if_pos h]
  · intro h
    have hno : ¬ (f.student_no = "" ∨ f.first_name = "" ∨ f.last_name = "" ∨
        f.email = "" ∨ f.course = "") := by
      push_neg
      exact h
    constructor
    · unfold save_student
      rw [if_neg hno]
      cases hA : add_student db f.student_no f.first_name f.last_name f.email
          (lookupCourseId db f.course) with
      | ok db2 =>
        intro hcon
        exact Dialog.noConfusion hcon
      | error er =>
        intro hcon
        rw [Dialog.err.injEq] at hcon
        exact absurd hcon.2 (by decide)
    · intro hfresh
      unfold save_student
      rw [if_neg hno,
        add_student_ok_of_fresh db f.student_no f.first_name f.last_name
          f.email (lookupCourseId db f.course) hfresh]
      exact ⟨rfl, by simp⟩

theorem save_student_validation_witness :
    (formEmpty.student_no = "" ∨ formEmpty.first_name = "" ∨
      formEmpty.last_name = "" ∨ formEmpty.email = "" ∨
      formEmpty.course = "") ∧
    save_student formEmpty db0 =
      (Dialog.err "Error" "All fields are required.", db0) ∧
    (formGood.student_no ≠ "" ∧ formGood.first_name ≠ "" ∧
      formGood.last_name ≠ "" ∧ formGood.email ≠ "" ∧ formGood.course ≠ "") ∧
    (∀ r ∈ db0.students, r.student_no ≠ formGood.student_no) ∧
    (save_student formGood db0).1 =
      Dialog.info "Success" "Student added successfully." ∧
    (save_student formGood db0).2.students.length =
      db0.students.length + 1 := by
  have h1 : formEmpty.student_no = "" ∨ formEmpty.first_name = "" ∨
      formEmpty.last_name = "" ∨ formEmpty.email = "" ∨
      formEmpty.course = "" := by decide
  have h2 : formGood.student_no ≠ "" ∧ formGood.first_name ≠ "" ∧
      formGood.last_name ≠ "" ∧ formGood.email ≠ "" ∧
      formGood.course ≠ "" := by decide
  have h3 : ∀ r ∈ db0.students, r.student_no ≠ formGood.student_no := by decide
  exact ⟨h1, (save_student_validation formEmpty db0).1 h1, h2, h3,
    (((save_student_validation formGood db0).2 h2).2 h3).1,
    (((save_student_validation formGood db0).2 h2).2 h3).2⟩

/-- C5: for every string `e`, well-formed e-mail address or not,
`add_student` (with a fresh student number) and `update_student` (on a
present id) succeed with `e` as the email without any format check, and
the stored email field afterwards equals `e` exactly. -/
theorem email_format_unchecked (db : DBState) (i : Nat) (sno fn ln e : String)
    (cid : Option Nat) :
    ((∀ r ∈ db.students, r.student_no ≠ sno) →
      ∃ db2, add_student db sno fn ln e cid = Except.ok db2 ∧
        ∃ r ∈ db2.students, r.student_no = sno ∧ r.email = e) ∧
    (((∃ r ∈ db.students, r.id = i) ∧
        (∀ r ∈ db.students, r.id = i ∨ r.student_no ≠ sno)) →
      ∃ db2, update_student db i sno fn ln e cid = Except.ok db2 ∧
        ∃ r ∈ db2.students, r.id = i ∧ r.student_no = sno ∧ r.email = e) := by
  constructor
  · intro h
    refine ⟨_, add_student_ok_of_fresh db sno fn ln e cid h, ?_⟩
    refine ⟨⟨db.nextStudentId, sno, fn, ln, e, cid⟩, ?_, rfl, rfl⟩
    simp
  · rintro ⟨⟨r0, hr0, hid⟩, hOK⟩
    unfold update_student
    rw [if_pos hOK]
    refine ⟨_, rfl, ?_⟩
    refine ⟨updRow r0 sno fn ln e cid, ?_, hid, rfl, rfl⟩
    simpa [hid] using List.mem_map_of_mem
      (fun r => if r.id = i then updRow r sno fn ln e cid else r) hr0

theorem email_format_unchecked_witness :
    (∀ r ∈ db0.students, r.student_no ≠ "S1004") ∧
    (∃ db2, add_student db0 "S1004" "Original" "Name" "not-an-email"
        (some 1) = Except.ok db2 ∧
      ∃ r ∈ db2.students, r.student_no = "S1004" ∧
        r.email = "not-an-email") ∧
    ((∃ r ∈ db0.students, r.id = 1) ∧
      (∀ r ∈ db0.students, r.id = 1 ∨ r.student_no ≠ "S1001")) ∧
    (∃ db2, update_student db0 1 "S1001" "Test" "User"
        "invalid-email-format" (some 1) = Except.ok db2 ∧
      ∃ r ∈ db2.students, r.id = 1 ∧ r.student_no = "S1001" ∧
        r.email = "invalid-email-format") := by
  have h1 : ∀ r ∈ db0.students, r.student_no ≠ "S1004" := by decide
  have h2 : (∃ r ∈ db0.students, r.id = 1) ∧
      (∀ r ∈ db0.students, r.id = 1 ∨ r.student_no ≠ "S1001") := by decide
  exact ⟨h1,
    (email_format_unchecked db0 1 "S1004" "Original" "Name" "not-an-email"
      (some 1)).1 h1,
    h2,
    (email_format_unchecked db0 1 "S1001" "Test" "User"
      "invalid-email-format" (some 1)).2 h2⟩

/-- C6: there exists a stored student whose displayed full name contains no
space — a single name with no last name — for which the name-splitting step
of the row-selection handler raises `IndexError`. -/
theorem name_splitting_index_error :
    ∃ r ∈ db6.students,
      (displayName r).data.all (fun c => c != ' ') = true ∧
      on_row_select (displayName r) =
        Except.error "IndexError: list index out of range" := by
  refine ⟨⟨1, "S1007", "SingleName", "", "single@university.edu", some 1⟩,
    ?_, ?_, ?_⟩
  · decide
  · decide
  · rfl

theorem toggle_theme_of_light (s : BaseViewState) (hl : s.theme = "light") :
    toggle_theme s =
      { s with theme := "dark", savedTheme := "dark", appliedBg := s.dark.bg } := by
  simp [toggle_theme, apply_theme, paletteOf, hl]

theorem toggle_theme_of_dark (s : BaseViewState) (hd : s.theme = "dark") :
    toggle_theme s =
      { s with theme := "light", savedTheme := "light",
               appliedBg := s.light.bg } := by
  have hne : s.theme ≠ "light" := by
    rw [hd]
    decide
  simp [toggle_theme, apply_theme, paletteOf, hne]

/-- C8: toggling swaps the active palette — from "light" it yields "dark"
and from "dark" it yields "light", so toggling twice restores the starting
theme; each toggle writes the new theme name back to the configuration
file, reapplies the widget colors from the new palette, and (when the two
palettes have distinct backgrounds) changes the applied background
color. -/
theorem toggle_theme_swaps (s : BaseViewState) :
    (s.theme = "light" → (toggle_theme s).theme = "dark") ∧
    (s.theme = "dark" → (toggle_theme s).theme = "light") ∧
    ((s.theme = "light" ∨ s.theme = "dark") →
      (toggle_theme (toggle_theme s)).theme = s.theme) ∧
    ((toggle_theme s).savedTheme = (toggle_theme s).theme) ∧
    ((toggle_theme s).appliedBg = (paletteOf s (toggle_theme s).theme).bg) ∧
    ((s.theme = "light" ∨ s.theme = "dark") → s.light.bg ≠ s.dark.bg →
      (toggle_theme s).appliedBg ≠ (apply_theme s).appliedBg) := by
  by_cases hl : s.theme = "light"
  · rw [toggle_theme_of_light s hl]
    refine ⟨fun _ => rfl, ?_, ?_, rfl, rfl, ?_⟩
    · intro hd
      rw [hl] at hd
      exact absurd hd (by decide)
    · intro _
      rw [toggle_theme_of_dark _ rfl]
      exact hl.symm
    · intro _ hbg
      unfold apply_theme paletteOf
      rw [hl]
      simpa using fun hcon => hbg hcon.symm
  · refine ⟨fun hcon => absurd hcon hl, ?_, ?_, ?_, ?_, ?_⟩
    · intro hd
      rw [toggle_theme_of_dark s hd]
    · rintro (hcon | hd)
      · exact absurd hcon hl
      · rw [toggle_theme_of_dark s hd, toggle_theme_of_light _ rfl]
        exact hd.symm
    · unfold toggle_theme apply_theme
      rw [if_neg hl]
    · unfold toggle_theme apply_theme paletteOf
      rw [if_neg hl]
    · rintro (hcon | hd) hbg
      · exact absurd hcon hl
      · rw [toggle_theme_of_dark s hd]
        unfold apply_theme paletteOf
        rw [hd, if_neg (by decide : ("dark" : String) ≠ "light")]
        simpa using hbg

theorem toggle_theme_swaps_witness :
    s8.theme = "light" ∧
    (s8.theme = "light" ∨ s8.theme = "dark") ∧
    s8.light.bg ≠ s8.dark.bg ∧
    (toggle_theme s8).theme = "dark" ∧
    (toggle_theme (toggle_theme s8)).theme = s8.theme ∧
    (toggle_theme s8).savedTheme = (toggle_theme s8).theme ∧
    (toggle_theme s8).appliedBg = (paletteOf s8 (toggle_theme s8).theme).bg ∧
    (toggle_theme s8).appliedBg ≠ (apply_theme s8).appliedBg := by
  have hl : s8.theme = "light" := rfl
  have hor : s8.theme = "light" ∨ s8.theme = "dark" := Or.inl hl
  have hbg : s8.light.bg ≠ s8.dark.bg := by decide
  exact ⟨hl, hor, hbg,
    (toggle_theme_swaps s8).1 hl,
    (toggle_theme_swaps s8).2.2.1 hor,
    (toggle_theme_swaps s8).2.2.2.1,
    (toggle_theme_swaps s8).2.2.2.2.1,
    (toggle_theme_swaps s8).2.2.2.2.2 hor hbg⟩

/-- C10: the search string reaches the database only as data, so a string
of SQL metacharacters is matched purely as a literal substring: on any
database in which no student's displayed name contains that literal text
the search returns no rows. -/
theorem search_injection_literal (db : DBState) (s : String)
    (h : ∀ r ∈ db.students, ¬ SubstringOf s (displayName r)) :
    search_students db s = [] := by
  rw [search_students, List.filter_eq_nil_iff]
  intro r hr
  simp only [strContainsSub_iff]
  exact h r hr

theorem search_injection_literal_witness :
    (∀ r ∈ dbSec.students, ¬ SubstringOf injStr (displayName r)) ∧
    search_students dbSec injStr = [] := by
  have hb : ∀ r ∈ dbSec.students,
      strContainsSub (displayName r) injStr = false := by decide
  have h : ∀ r ∈ dbSec.students, ¬ SubstringOf injStr (displayName r) := by
    intro r hr hs
    have ht := (strContainsSub_iff (displayName r) injStr).mpr hs
    rw [hb r hr] at ht
    exact Bool.false_ne_true ht
  exact ⟨h, search_injection_literal dbSec injStr h⟩

end StudentMgmt
